import Mathlib

/-!
Verification development for the `win32-com-cli` program (`src/main.rs`).

The program reads a JSON document describing a late-bound COM automation
call, marshals each JSON property value into a `VARIANT`, assigns the
properties, invokes the method, reads the `ErrorCode` property, and prints
it.  This file gives a shallow embedding of the program's data model and
control flow and proves (or refutes) the stated specification claims.

Modelling conventions:
* JSON numbers follow `serde_json::Number`'s internal representation
  (`PosInt` for non-negative integers stored as `u64`, `NegInt` for
  negative integers stored as `i64`, `Float` for values parsed with a
  decimal point or exponent).  `f64` payloads are modelled as exact
  rationals; the program never performs floating-point arithmetic on
  them, it only stores and forwards them.
* Machine-integer narrowing (`i as i32` in Rust) is modelled explicitly
  with `% 2^32` arithmetic (`toInt32Wrap`).
* Effects (stdout, stderr, COM API calls) are modelled as an explicit
  event trace; external COM API outcomes are supplied by a `ComHost`
  record of oracles (the spec treats the host automation runtime as an
  external capability interface).
* The `HashMap` used for `properties` has an unspecified iteration
  order; `execute` therefore takes the iteration order as an explicit
  list parameter.  Every run of the source corresponds to some such list
  that is a permutation of the decoded entries.
-/

/-- Maximum value of a signed 64-bit integer (`i64::MAX`). -/
def i64MaxNat : Nat := 9223372036854775807

/-- The numeric payload of a JSON number, mirroring `serde_json::Number`:
`posInt` stores a non-negative integer (Rust `u64`), `negInt` stores a
negative integer (Rust `i64`; the parser only stores negatives here),
`float` stores a value that was parsed as `f64` (modelled as an exact
rational). -/
inductive JsonNumber where
  | posInt (n : Nat)
  | negInt (i : Int)
  | float (q : ℚ)
  deriving DecidableEq

/-- `serde_json::Number::is_i64`: true iff the stored value is
representable as an `i64` — representation-based: `Float` payloads are
never `i64`, even when their value is integral. -/
def JsonNumber.is_i64 : JsonNumber → Bool
  | .posInt n => decide (n ≤ i64MaxNat)
  | .negInt _ => true
  | .float _ => false

/-- `serde_json::Number::as_i64`. -/
def JsonNumber.as_i64 : JsonNumber → Option Int
  | .posInt n => if n ≤ i64MaxNat then some (n : Int) else none
  | .negInt i => some i
  | .float _ => none

/-- `serde_json::Number::is_f64`: true iff the value is stored as `f64`. -/
def JsonNumber.is_f64 : JsonNumber → Bool
  | .float _ => true
  | _ => false

/-- `serde_json::Number::as_f64`.  For integer payloads serde converts
with Rust's `as f64` cast (which may round for magnitudes ≥ 2^53); they
are modelled as exact rationals here, which is unobservable in this
program because `value_to_variant` only calls `as_f64` after `is_f64`
succeeded, i.e. only on `float` payloads. -/
def JsonNumber.as_f64 : JsonNumber → Option ℚ
  | .posInt n => some (n : ℚ)
  | .negInt i => some (i : ℚ)
  | .float q => some q

/-- The integer value of an integer-kind JSON number (`none` for float
payloads). -/
def JsonNumber.intVal? : JsonNumber → Option Int
  | .posInt n => some (n : Int)
  | .negInt i => some i
  | .float _ => none

/-- A JSON document (`serde_json::Value`). -/
inductive Json where
  | str (s : String)
  | num (n : JsonNumber)
  | bool (b : Bool)
  | null
  | arr (xs : List Json)
  | obj (fields : List (String × Json))

/-- Decimal rendering of a JSON number, as Rust's `Display` produces it.
Float rendering (Rust uses ryu) is modelled as the rational's `toString`;
no theorem in this file depends on the text of a float rendering. -/
def jsonNumberDisplay : JsonNumber → String
  | .posInt n => toString n
  | .negInt i => toString i
  | .float q => toString q

/-- Rust `{:?}` rendering of a string: quote-wrapped.  Rust's escape
sequences for special characters are not modelled; no theorem depends on
them. -/
def rustDebugString (s : String) : String := "\"" ++ s ++ "\""

mutual

/-- Rust `{:?}` (Debug) rendering of a `serde_json::Value`, used by the
`Setting property: {name} = {value:?}` progress line. -/
def jsonDebugRepr : Json → String
  | .null => "Null"
  | .bool b => if b then "Bool(true)" else "Bool(false)"
  | .num n => "Number(" ++ jsonNumberDisplay n ++ ")"
  | .str s => "String(" ++ rustDebugString s ++ ")"
  | .arr xs => "Array [" ++ jsonListDebugRepr xs ++ "]"
  | .obj fs => "Object \x7b" ++ jsonFieldsDebugRepr fs ++ "\x7d"

/-- Comma-separated Debug rendering of a JSON array's elements. -/
def jsonListDebugRepr : List Json → String
  | [] => ""
  | [x] => jsonDebugRepr x
  | x :: y :: xs => jsonDebugRepr x ++ ", " ++ jsonListDebugRepr (y :: xs)

/-- Comma-separated Debug rendering of a JSON object's fields. -/
def jsonFieldsDebugRepr : List (String × Json) → String
  | [] => ""
  | [p] => rustDebugString p.1 ++ ": " ++ jsonDebugRepr p.2
  | p :: q :: fs =>
      rustDebugString p.1 ++ ": " ++ jsonDebugRepr p.2 ++ ", " ++
        jsonFieldsDebugRepr (q :: fs)

end

/-- The tagged COM value union (`VARIANT`), restricted to the kinds this
program can produce: `vempty` is `VARIANT::default()` (VT_EMPTY),
`vbstr` a BSTR string, `vi4` a 32-bit signed integer, `vr8` a 64-bit
float (modelled as an exact rational), `vbool` a boolean. -/
inductive VARIANT where
  | vempty
  | vbstr (s : String)
  | vi4 (n : Int)
  | vr8 (q : ℚ)
  | vbool (b : Bool)
  deriving DecidableEq

/-- Rust's `as i32` narrowing cast on an `i64` value: two's-complement
truncation to the range `[-2^31, 2^31)`. -/
def toInt32Wrap (i : Int) : Int := (i + 2 ^ 31) % 2 ^ 32 - 2 ^ 31

/-- Warning emitted for a number representable neither as `i64` nor as
`f64` (`src/main.rs:37`). -/
def numberWarning (n : JsonNumber) : String :=
  "Warning: Unsupported number type in JSON, defaulting to empty VARIANT. Value: "
    ++ jsonNumberDisplay n

/-- Warning emitted for a JSON null (`src/main.rs:46`). -/
def nullWarning : String := "Warning: Unable to set NULL as a VARIANT"

/-- Warning emitted for a JSON array (`src/main.rs:50`). -/
def arrayWarning : String :=
  "Warning: JSON Array type is not directly supported for simple VARIANT conversion for property setting. Defaulting to empty VARIANT."

/-- Warning emitted for a JSON object (`src/main.rs:57`). -/
def objectWarning : String :=
  "Warning: JSON Object type is not directly supported for simple VARIANT conversion for property setting. Defaulting to empty VARIANT."

/-- `value_to_variant` (`src/main.rs:22-64`): converts a JSON value to a
`VARIANT`.  The second component is the list of warning lines the
function writes to stderr (`eprintln!`). -/
def value_to_variant : Json → VARIANT × List String
  | .str s => (.vbstr s, [])
  | .num n =>
      if n.is_i64 then
        (match n.as_i64 with
         | some i => .vi4 (toInt32Wrap i)
         | none => .vempty, [])
      else if n.is_f64 then
        (match n.as_f64 with
         | some f => .vr8 f
         | none => .vempty, [])
      else
        (.vempty, [numberWarning n])
  | .bool b => (.vbool b, [])
  | .null => (.vempty, [nullWarning])
  | .arr _ => (.vempty, [arrayWarning])
  | .obj _ => (.vempty, [objectWarning])

/-- The integer value of a JSON number when its value is mathematically
integral and representable as a signed 64-bit integer — this renders the
§4.2 table's words "Number, integral and representable in 64 bits"
(value-based, not representation-based). -/
def JsonNumber.specIntegral64? : JsonNumber → Option Int
  | .posInt m => if (m : Int) ≤ (i64MaxNat : Int) then some (m : Int) else none
  | .negInt i => if -(2 ^ 63) ≤ i ∧ i ≤ (i64MaxNat : Int) then some i else none
  | .float q =>
      if q.den = 1 ∧ -(2 ^ 63) ≤ q.num ∧ q.num ≤ (i64MaxNat : Int) then some q.num
      else none

/-- Whether a JSON number has a fractional component (value-based), per
the §4.2 table's words "Number, non-integral (has fractional
component)". -/
def JsonNumber.hasFractional : JsonNumber → Bool
  | .posInt _ => false
  | .negInt _ => false
  | .float q => decide (q.den ≠ 1)

/-- The float payload of a JSON number (`0` for integer payloads; only
used where `hasFractional` holds). -/
def JsonNumber.floatPayload : JsonNumber → ℚ
  | .float q => q
  | _ => 0

/-- The marshaling table exactly as the spec's §4.2 words prescribe it
(this definition follows the SPEC for the refinement comparison of C1,
not the source): a Number whose value is integral and fits in signed 64
bits goes to the 32-bit-integer kind (narrowed); a Number with a
fractional component goes to the float kind; a Number representable
neither way goes to the empty kind. -/
def marshalSpecTable : Json → VARIANT
  | .str s => .vbstr s
  | .num n =>
      match n.specIntegral64? with
      | some i => .vi4 (toInt32Wrap i)
      | none =>
          if n.hasFractional then .vr8 n.floatPayload else .vempty
  | .bool b => .vbool b
  | .null => .vempty
  | .arr _ => .vempty
  | .obj _ => .vempty

/-- The marshaling table the code actually implements, stated
constructor-by-constructor (representation-based): a number stored as a
float maps to the float kind even when its value is integral; a
non-negative integer above `i64::MAX` maps to the empty kind. -/
def marshalAmended : Json → VARIANT
  | .str s => .vbstr s
  | .num (.posInt m) =>
      if m ≤ i64MaxNat then .vi4 (toInt32Wrap (m : Int)) else .vempty
  | .num (.negInt i) => .vi4 (toInt32Wrap i)
  | .num (.float q) => .vr8 q
  | .bool b => .vbool b
  | .null => .vempty
  | .arr _ => .vempty
  | .obj _ => .vempty

/-- C1 (counterexample): the §4.2 table as the claim states it fails on
the code.  The JSON number `2.0` (stored as a float payload with the
integral value 2) is "integral and representable in 64 bits", so the
claim's table prescribes the 32-bit-integer kind holding 2; the code
tests the stored representation (`is_i64`) first and produces the
64-bit-float kind instead. -/
theorem C1_marshal_table_counterexample :
    (value_to_variant (Json.num (JsonNumber.float 2))).1 ≠
        marshalSpecTable (Json.num (JsonNumber.float 2)) ∧
      marshalSpecTable (Json.num (JsonNumber.float 2)) = VARIANT.vi4 2 ∧
      (value_to_variant (Json.num (JsonNumber.float 2))).1 = VARIANT.vr8 2 := by
  refine ⟨?_, ?_, ?_⟩ <;> decide

/-- C1 (amended): the mapping the code implements, proved for every
input: strings to the string kind; a number stored as an `i64`-range
integer to the 32-bit-integer kind with two's-complement narrowing; a
number stored as a float to the float kind (even when its value is
integral); a non-negative integer above `i64::MAX` to the empty kind;
booleans to the boolean kind; null, arrays and objects to the empty
kind. -/
theorem C1_marshal_table_amended (v : Json) :
    (value_to_variant v).1 = marshalAmended v := by
  cases v with
  | num n =>
      cases n with
      | posInt m =>
          by_cases h : m ≤ i64MaxNat <;>
            simp [value_to_variant, marshalAmended, JsonNumber.is_i64,
              JsonNumber.as_i64, JsonNumber.is_f64, h]
      | negInt i =>
          simp [value_to_variant, marshalAmended, JsonNumber.is_i64,
            JsonNumber.as_i64]
      | float q =>
          simp [value_to_variant, marshalAmended, JsonNumber.is_i64,
            JsonNumber.is_f64, JsonNumber.as_f64]
  | str s => rfl
  | bool b => rfl
  | null => rfl
  | arr xs => rfl
  | obj fs => rfl

/-- C5: `value_to_variant` is total by construction (it is a Lean
function on all of `Json`); for Null, Array and Object inputs it always
produces the empty kind, never forwarding the original structure, and
emits exactly one diagnostic line per such value. -/
theorem C5_null_array_object_degrade :
    value_to_variant Json.null = (VARIANT.vempty, [nullWarning]) ∧
      (∀ xs : List Json,
        value_to_variant (Json.arr xs) = (VARIANT.vempty, [arrayWarning])) ∧
      (∀ fs : List (String × Json),
        value_to_variant (Json.obj fs) = (VARIANT.vempty, [objectWarning])) :=
  ⟨rfl, fun _ => rfl, fun _ => rfl⟩

/-- The decoded call descriptor (`ComMethodCall`, `src/main.rs:9-15`).
`properties` models the contents of the Rust `HashMap<String, Value>`;
the list order is the canonical insertion order from decoding, while the
map's iteration order is unspecified and is supplied separately to
`execute`. -/
structure ComMethodCall where
  version : String
  prog_id : String
  method : String
  properties : List (String × Json)

/-- serde deserialization of a JSON value into a Rust `String` field. -/
def decodeStringField : Json → Except String String
  | .str s => .ok s
  | _ => .error "invalid type: expected a string"

/-- `HashMap::insert` semantics on the association-list model: replace
an existing binding of the key in place, otherwise add a new binding. -/
def hashInsert (m : List (String × Json)) (k : String) (v : Json) :
    List (String × Json) :=
  if m.any (fun p => p.1 == k) then
    m.map (fun p => if p.1 == k then (k, v) else p)
  else m ++ [(k, v)]

/-- Building a `HashMap<String, Value>` from the decoded object fields
in document order (later duplicate keys overwrite earlier ones, as
serde's map deserialization into `HashMap` does). -/
def hashInsertAll (fields : List (String × Json)) : List (String × Json) :=
  fields.foldl (fun m p => hashInsert m p.1 p.2) []

/-- serde deserialization of the `properties` field into
`HashMap<String, Value>`: any JSON object is accepted, with no
restriction on the shape of the values. -/
def decodePropertiesField : Json → Except String (List (String × Json))
  | .obj fields => .ok (hashInsertAll fields)
  | _ => .error "invalid type: expected a map"

/-- The field loop of serde's derived `ComMethodCall` deserializer: the
four known field names fill their slot (a second occurrence is a
duplicate-field error), unknown field names are ignored. -/
def decodeFields (version? prog_id? method? : Option String)
    (properties? : Option (List (String × Json))) :
    List (String × Json) →
      Except String
        (Option String × Option String × Option String ×
          Option (List (String × Json)))
  | [] => .ok (version?, prog_id?, method?, properties?)
  | (k, v) :: rest =>
      if k == "version" then
        match version? with
        | some _ => .error "duplicate field `version`"
        | none => do
            let s ← decodeStringField v
            decodeFields (some s) prog_id? method? properties? rest
      else if k == "prog_id" then
        match prog_id? with
        | some _ => .error "duplicate field `prog_id`"
        | none => do
            let s ← decodeStringField v
            decodeFields version? (some s) method? properties? rest
      else if k == "method" then
        match method? with
        | some _ => .error "duplicate field `method`"
        | none => do
            let s ← decodeStringField v
            decodeFields version? prog_id? (some s) properties? rest
      else if k == "properties" then
        match properties? with
        | some _ => .error "duplicate field `properties`"
        | none => do
            let m ← decodePropertiesField v
            decodeFields version? prog_id? method? (some m) rest
      else
        decodeFields version? prog_id? method? properties? rest

/-- `get_call_params_from_json_buffer` (`src/main.rs:192-197`), modelled
at the level of the parsed JSON document: serde's derived deserializer
for `ComMethodCall`.  All four fields are required; unknown extra fields
are ignored; no alternative (alias) field names exist.  In the source a
decode failure aborts the process via `.expect`, modelled as the error
result. -/
def get_call_params_from_json (j : Json) : Except String ComMethodCall :=
  match j with
  | .obj fields => do
      let (version?, prog_id?, method?, properties?) ←
        decodeFields none none none none fields
      let version ←
        match version? with
        | some s => Except.ok s
        | none => Except.error "missing field `version`"
      let prog_id ←
        match prog_id? with
        | some s => Except.ok s
        | none => Except.error "missing field `prog_id`"
      let method ←
        match method? with
        | some s => Except.ok s
        | none => Except.error "missing field `method`"
      let properties ←
        match properties? with
        | some m => Except.ok m
        | none => Except.error "missing field `properties`"
      .ok ⟨version, prog_id, method, properties⟩
  | _ => .error "invalid type: expected struct ComMethodCall"

/-- C7 (counterexample): a document that uses `target_id` in place of
`prog_id` does not decode — the derived deserializer has no alias field
names, so `target_id` is ignored as an unknown field and decoding fails
with a missing-field error, contrary to the claim that it decodes
successfully. -/
theorem C7_alias_counterexample :
    get_call_params_from_json
        (Json.obj
          [("version", Json.str "1"), ("target_id", Json.str "X.Y"),
            ("method", Json.str "Cancel"), ("properties", Json.obj [])]) =
      Except.error "missing field `prog_id`" := rfl

/-- C7 (amended): the decoder accepts only the exact field names
`prog_id` and `method`; a document using the spec's alternative names
`target_id` or `method_name` instead fails decoding with the
corresponding missing-field error, while the canonical names decode
successfully. -/
theorem C7_alias_amended (ver pid mname : String)
    (props : List (String × Json)) :
    get_call_params_from_json
        (Json.obj
          [("version", Json.str ver), ("prog_id", Json.str pid),
            ("method", Json.str mname), ("properties", Json.obj props)]) =
      Except.ok ⟨ver, pid, mname, hashInsertAll props⟩ ∧
    get_call_params_from_json
        (Json.obj
          [("version", Json.str ver), ("target_id", Json.str pid),
            ("method", Json.str mname), ("properties", Json.obj props)]) =
      Except.error "missing field `prog_id`" ∧
    get_call_params_from_json
        (Json.obj
          [("version", Json.str ver), ("prog_id", Json.str pid),
            ("method_name", Json.str mname), ("properties", Json.obj props)]) =
      Except.error "missing field `method`" :=
  ⟨rfl, rfl, rfl⟩

/-- C9: decoding places no scalar restriction on property values — a
document whose `properties` object holds an Array, an Object and a Null
decodes successfully, carrying those values unchanged in the descriptor;
they are only degraded (to the empty kind, with a diagnostic) later, at
marshaling time. -/
theorem C9_nonscalar_properties_decode (ver pid mname : String)
    (xs : List Json) (fs : List (String × Json)) :
    get_call_params_from_json
        (Json.obj
          [("version", Json.str ver), ("prog_id", Json.str pid),
            ("method", Json.str mname),
            ("properties",
              Json.obj
                [("A", Json.arr xs), ("B", Json.obj fs), ("C", Json.null)])]) =
      Except.ok
        ⟨ver, pid, mname,
          [("A", Json.arr xs), ("B", Json.obj fs), ("C", Json.null)]⟩ ∧
    (value_to_variant (Json.arr xs)).1 = VARIANT.vempty ∧
    (value_to_variant (Json.obj fs)).1 = VARIANT.vempty ∧
    (value_to_variant Json.null).1 = VARIANT.vempty :=
  ⟨rfl, rfl, rfl, rfl⟩

/-- An error returned by a COM API call (`windows::core::Error`),
carried opaquely. -/
structure ComError where
  msg : String
  deriving DecidableEq

/-- The `wFlags` invocation mode passed to `IDispatch::Invoke`. -/
inductive DispatchMode where
  | propertyPut
  | method
  | propertyGet
  deriving DecidableEq

/-- `DISPID_PROPERTYPUT`, the distinguished named-argument marker for a
property-put invocation. -/
def dispidPropertyPut : Int := -3

/-- An observable step of the program: a stdout line, a stderr line, or
a call into the COM runtime.  `releaseObject` is the `IDispatch`
handle's `Release`, run by Rust's `Drop` when the handle goes out of
scope. -/
inductive Event where
  | stdout (line : String)
  | stderr (line : String)
  | coInit
  | coUninit
  | getIDsOfNames (name : String)
  | invoke (dispid : Int) (mode : DispatchMode) (args : List VARIANT)
      (namedArgs : List Int)
  | releaseObject

/-- The host COM runtime as an oracle record: the outcome of each
external API call as a function of its arguments (spec §6 treats the
automation runtime as an external capability interface consumed by the
Invocation Driver). -/
structure ComHost where
  clsidFromProgID : String → Except ComError Nat
  createInstance : Nat → Except ComError Unit
  getIDsOfNames : String → Except ComError Int
  invokePut : Int → VARIANT → Except ComError Unit
  invokeMethod : Int → Except ComError Unit
  invokeGet : Int → Except ComError VARIANT

/-- Modelled from the spec: the text the external `VariantToString`
Windows API renders for a `VARIANT` (not code of this repository);
§4.2's reverse direction says it converts whatever scalar kind the
target returned into a human-readable string, and §8 requires the
32-bit-integer kind to render as the decimal string. -/
def variantToStringRendering : VARIANT → String
  | .vempty => ""
  | .vbstr s => s
  | .vi4 n => toString n
  | .vr8 q => toString q
  | .vbool b => if b then "True" else "False"

/-- The failure `VariantToString` reports when the caller-supplied
destination buffer cannot hold the rendered string and its terminator
(the precise HRESULT is immaterial to every theorem below). -/
def insufficientBufferError : ComError := ⟨"STRSAFE_E_INSUFFICIENT_BUFFER"⟩

/-- Modelled from the spec: the external `VariantToString` API writes
the rendering into a caller-supplied buffer of capacity `cchBuf`
(UTF-16 units including the null terminator; the unit of measure is
immaterial at capacity 0, the only capacity this program ever supplies)
and fails whenever the rendering and its terminator do not fit — in
particular it always fails for a zero-capacity buffer. -/
def variantToStringInto (v : VARIANT) (cchBuf : Nat) :
    Except ComError String :=
  if (variantToStringRendering v).length + 1 ≤ cchBuf then
    .ok (variantToStringRendering v)
  else .error insufficientBufferError

/-- `set_property` (`src/main.rs:66-103`): resolve the property name to
a DISPID, marshal the value, and perform a property-put invocation with
one positional argument marked by `DISPID_PROPERTYPUT`.  Returns the
event trace and the result. -/
def set_property (host : ComHost) (name : String) (value : Json) :
    List Event × Except ComError Unit :=
  match host.getIDsOfNames name with
  | .error e => ([.getIDsOfNames name], .error e)
  | .ok dispid =>
      ([Event.getIDsOfNames name] ++
          ((value_to_variant value).2).map Event.stderr ++
          [.invoke dispid .propertyPut [(value_to_variant value).1]
            [dispidPropertyPut]],
        host.invokePut dispid (value_to_variant value).1)

/-- The "Setting property: ..." stdout progress line
(`src/main.rs:144`). -/
def settingPropertyLine (p : String × Json) : String :=
  "Setting property: " ++ (p.1 ++ (" = " ++ jsonDebugRepr p.2))

/-- The property loop of `call_method` (`src/main.rs:143-149`): for each
property in the `HashMap`'s iteration order, print the progress line and
assign the property, stopping at the first failure (`?`). -/
def setPropsLoop (host : ComHost) :
    List (String × Json) → List Event × Except ComError Unit
  | [] => ([], .ok ())
  | p :: rest =>
      match (set_property host p.1 p.2).2 with
      | .error e =>
          (Event.stdout (settingPropertyLine p) :: (set_property host p.1 p.2).1,
            .error e)
      | .ok _ =>
          (Event.stdout (settingPropertyLine p) :: (set_property host p.1 p.2).1
              ++ (setPropsLoop host rest).1,
            (setPropsLoop host rest).2)

/-- `get_property` (`src/main.rs:105-136`): resolve the name, perform a
property-get invocation, then stringify the returned `VARIANT`.  The
source creates an empty `BSTR` (`bstr_val`) and passes `VariantToString`
the TEMPORARY buffer `bstr_val.to_vec()` — a zero-length copy of the
empty BSTR's contents that is immediately discarded — so the conversion
is attempted into a zero-capacity destination (and the written text,
were there any, would be thrown away).  The `?` propagates the
resulting failure; on the (unreachable) success branch the function
would return `bstr_val.to_string()`, the untouched empty string. -/
def get_property (host : ComHost) (name : String) :
    List Event × Except ComError String :=
  match host.getIDsOfNames name with
  | .error e => ([.getIDsOfNames name], .error e)
  | .ok dispid =>
      match host.invokeGet dispid with
      | .error e =>
          ([.getIDsOfNames name, .invoke dispid .propertyGet [] []], .error e)
      | .ok res =>
          match variantToStringInto res 0 with
          | .error e =>
              ([.getIDsOfNames name, .invoke dispid .propertyGet [] []],
                .error e)
          | .ok _ =>
              ([.getIDsOfNames name, .invoke dispid .propertyGet [] []],
                .ok "")

/-- `call_method` (`src/main.rs:138-182`): assign every property (in the
map's iteration order, given here as the list order of `props`), then
resolve the method name, print the "Calling method" line, and perform a
zero-argument method invocation. -/
def call_method (host : ComHost) (name : String)
    (props : List (String × Json)) : List Event × Except ComError Unit :=
  match (setPropsLoop host props).2 with
  | .error e => ((setPropsLoop host props).1, .error e)
  | .ok _ =>
      match host.getIDsOfNames name with
      | .error e =>
          ((setPropsLoop host props).1 ++ [.getIDsOfNames name], .error e)
      | .ok dispid =>
          ((setPropsLoop host props).1 ++
              [Event.getIDsOfNames name,
                .stdout ("Calling method: " ++ name),
                .invoke dispid .method [] []],
            host.invokeMethod dispid)

/-- `execute` (`src/main.rs:199-215`): initialize COM, resolve the
CLSID from the prog id, create the `IDispatch` instance, run
`call_method`, read the `ErrorCode` property, print it, and call
`CoUninitialize`.  Every `?` is an early return that skips the
remaining statements — in particular `CoUninitialize()` — while the
`IDispatch` handle is released by `Drop` on every path after its
creation.  `iter` is the `HashMap`'s iteration order (a permutation of
`com.properties`). -/
def execute (host : ComHost) (com : ComMethodCall)
    (iter : List (String × Json)) : List Event × Except ComError Unit :=
  match host.clsidFromProgID com.prog_id with
  | .error e => ([Event.coInit], .error e)
  | .ok clsid =>
      match host.createInstance clsid with
      | .error e => ([Event.coInit], .error e)
      | .ok _ =>
          match (call_method host com.method iter).2 with
          | .error e =>
              (Event.coInit :: (call_method host com.method iter).1 ++
                  [Event.releaseObject],
                .error e)
          | .ok _ =>
              match (get_property host "ErrorCode").2 with
              | .error e =>
                  (Event.coInit :: (call_method host com.method iter).1 ++
                      (get_property host "ErrorCode").1 ++ [Event.releaseObject],
                    .error e)
              | .ok ec =>
                  (Event.coInit :: (call_method host com.method iter).1 ++
                      (get_property host "ErrorCode").1 ++
                      [Event.stdout ("Error Code: " ++ ec), Event.coUninit,
                        Event.releaseObject],
                    .ok ())

/-- The stdout lines of a trace, in order. -/
def stdoutLinesOf (tr : List Event) : List String :=
  tr.filterMap fun e =>
    match e with
    | .stdout l => some l
    | _ => none

/-- The stderr lines of a trace, in order. -/
def stderrLinesOf (tr : List Event) : List String :=
  tr.filterMap fun e =>
    match e with
    | .stderr l => some l
    | _ => none

/-- The `IDispatch::Invoke` calls of a trace (DISPID and mode), in
order. -/
def invokeCallsOf (tr : List Event) : List (Int × DispatchMode) :=
  tr.filterMap fun e =>
    match e with
    | .invoke d m _ _ => some (d, m)
    | _ => none

/-- Whether an event is a property-put invocation. -/
def isPutInvoke : Event → Bool
  | .invoke _ .propertyPut _ _ => true
  | _ => false

/-- Whether an event is a method invocation. -/
def isMethodInvoke : Event → Bool
  | .invoke _ .method _ _ => true
  | _ => false

/-- Whether an event is a property-get invocation (the status read). -/
def isGetInvoke : Event → Bool
  | .invoke _ .propertyGet _ _ => true
  | _ => false

/-- Whether a trace contains the `CoUninitialize` call. -/
def hasCoUninit (tr : List Event) : Bool :=
  tr.any fun e =>
    match e with
    | .coUninit => true
    | _ => false

/-- Whether a trace contains the handle's `Release` (Rust `Drop`). -/
def hasReleaseObject (tr : List Event) : Bool :=
  tr.any fun e =>
    match e with
    | .releaseObject => true
    | _ => false

/-- Whether an invocation result is a success. -/
def resultOk : Except ComError Unit → Bool
  | .ok _ => true
  | .error _ => false

/-- The DISPID the host resolves a name to (0 if resolution fails; on
successful runs it always agrees with the actual resolution). -/
def resolvedId (host : ComHost) (name : String) : Int :=
  match host.getIDsOfNames name with
  | .ok d => d
  | .error _ => 0

/-- Whether a line is an "Error Code:" output line: its first twelve
characters are `Error Code: `. -/
def beginsWithErrorCode (l : String) : Bool :=
  l.data.take 12 == "Error Code: ".data

/-- C10: the `version` field is required for decoding to succeed, and
its value never influences behavior afterward: two documents that differ
only in the value of `version` both decode (into descriptors differing
only in `version`), and `execute` produces the identical event trace and
result for the two descriptors; a document without `version` fails to
decode. -/
theorem C10_version_required_but_inert (v1 v2 pid mname : String)
    (props P iter : List (String × Json)) (host : ComHost) :
    get_call_params_from_json
        (Json.obj
          [("version", Json.str v1), ("prog_id", Json.str pid),
            ("method", Json.str mname), ("properties", Json.obj props)]) =
      Except.ok ⟨v1, pid, mname, hashInsertAll props⟩ ∧
    get_call_params_from_json
        (Json.obj
          [("version", Json.str v2), ("prog_id", Json.str pid),
            ("method", Json.str mname), ("properties", Json.obj props)]) =
      Except.ok ⟨v2, pid, mname, hashInsertAll props⟩ ∧
    execute host ⟨v1, pid, mname, P⟩ iter =
      execute host ⟨v2, pid, mname, P⟩ iter ∧
    get_call_params_from_json
        (Json.obj
          [("prog_id", Json.str pid), ("method", Json.str mname),
            ("properties", Json.obj props)]) =
      Except.error "missing field `version`" :=
  ⟨rfl, rfl, rfl, rfl⟩

/-- A host on which every COM call succeeds; property names `a` and `b`
resolve to DISPIDs 1 and 2, `ErrorCode` to 11, everything else to 10;
the status read returns the 32-bit integer 0. -/
def hostOk : ComHost where
  clsidFromProgID := fun _ => .ok 7
  createInstance := fun _ => .ok ()
  getIDsOfNames := fun n =>
    if n == "a" then .ok 1
    else if n == "b" then .ok 2
    else if n == "ErrorCode" then .ok 11
    else .ok 10
  invokePut := fun _ _ => .ok ()
  invokeMethod := fun _ => .ok ()
  invokeGet := fun _ => .ok (VARIANT.vi4 0)

/-- Like `hostOk`, except that the property-put invocation on DISPID 2
(property name `b`) is rejected by the target. -/
def hostPutFailB : ComHost where
  clsidFromProgID := fun _ => .ok 7
  createInstance := fun _ => .ok ()
  getIDsOfNames := fun n =>
    if n == "a" then .ok 1
    else if n == "b" then .ok 2
    else if n == "ErrorCode" then .ok 11
    else .ok 10
  invokePut := fun d _ =>
    if d == 2 then .error ⟨"put rejected"⟩ else .ok ()
  invokeMethod := fun _ => .ok ()
  invokeGet := fun _ => .ok (VARIANT.vi4 0)

/-- C3: evaluation at the failing input.  When the property assignment
of `b` fails, `execute` returns early through `?`: the run fails and the
`IDispatch` handle is dropped (released), but `CoUninitialize` is never
called, so the process-wide automation context is NOT released on this
error path, contrary to the claim. -/
theorem C3_couninitialize_skipped_on_error :
    resultOk
        (execute hostPutFailB ⟨"1", "X.Y", "Cancel", [("b", Json.str "y")]⟩
            [("b", Json.str "y")]).2 = false ∧
      hasCoUninit
        (execute hostPutFailB ⟨"1", "X.Y", "Cancel", [("b", Json.str "y")]⟩
            [("b", Json.str "y")]).1 = false ∧
      hasReleaseObject
        (execute hostPutFailB ⟨"1", "X.Y", "Cancel", [("b", Json.str "y")]⟩
            [("b", Json.str "y")]).1 = true :=
  ⟨rfl, rfl, rfl⟩


@[simp] theorem invokeCallsOf_nil : invokeCallsOf [] = [] := rfl

@[simp] theorem stdoutLinesOf_nil : stdoutLinesOf [] = [] := rfl

@[simp] theorem stderrLinesOf_nil : stderrLinesOf [] = [] := rfl

@[simp] theorem invokeCallsOf_append (a b : List Event) :
    invokeCallsOf (a ++ b) = invokeCallsOf a ++ invokeCallsOf b :=
  List.filterMap_append a b _

@[simp] theorem stdoutLinesOf_append (a b : List Event) :
    stdoutLinesOf (a ++ b) = stdoutLinesOf a ++ stdoutLinesOf b :=
  List.filterMap_append a b _

@[simp] theorem stderrLinesOf_append (a b : List Event) :
    stderrLinesOf (a ++ b) = stderrLinesOf a ++ stderrLinesOf b :=
  List.filterMap_append a b _

@[simp] theorem invokeCallsOf_cons_stdout (l : String) (tr : List Event) :
    invokeCallsOf (Event.stdout l :: tr) = invokeCallsOf tr := by
  simp [invokeCallsOf]

@[simp] theorem invokeCallsOf_cons_stderr (l : String) (tr : List Event) :
    invokeCallsOf (Event.stderr l :: tr) = invokeCallsOf tr := by
  simp [invokeCallsOf]

@[simp] theorem invokeCallsOf_cons_coInit (tr : List Event) :
    invokeCallsOf (Event.coInit :: tr) = invokeCallsOf tr := by
  simp [invokeCallsOf]

@[simp] theorem invokeCallsOf_cons_coUninit (tr : List Event) :
    invokeCallsOf (Event.coUninit :: tr) = invokeCallsOf tr := by
  simp [invokeCallsOf]

@[simp] theorem invokeCallsOf_cons_getIDs (n : String) (tr : List Event) :
    invokeCallsOf (Event.getIDsOfNames n :: tr) = invokeCallsOf tr := by
  simp [invokeCallsOf]

@[simp] theorem invokeCallsOf_cons_release (tr : List Event) :
    invokeCallsOf (Event.releaseObject :: tr) = invokeCallsOf tr := by
  simp [invokeCallsOf]

@[simp] theorem invokeCallsOf_cons_invoke (d : Int) (m : DispatchMode)
    (a : List VARIANT) (na : List Int) (tr : List Event) :
    invokeCallsOf (Event.invoke d m a na :: tr) = (d, m) :: invokeCallsOf tr := by
  simp [invokeCallsOf]

@[simp] theorem stdoutLinesOf_cons_stdout (l : String) (tr : List Event) :
    stdoutLinesOf (Event.stdout l :: tr) = l :: stdoutLinesOf tr := by
  simp [stdoutLinesOf]

@[simp] theorem stdoutLinesOf_cons_stderr (l : String) (tr : List Event) :
    stdoutLinesOf (Event.stderr l :: tr) = stdoutLinesOf tr := by
  simp [stdoutLinesOf]

@[simp] theorem stdoutLinesOf_cons_coInit (tr : List Event) :
    stdoutLinesOf (Event.coInit :: tr) = stdoutLinesOf tr := by
  simp [stdoutLinesOf]

@[simp] theorem stdoutLinesOf_cons_coUninit (tr : List Event) :
    stdoutLinesOf (Event.coUninit :: tr) = stdoutLinesOf tr := by
  simp [stdoutLinesOf]

@[simp] theorem stdoutLinesOf_cons_getIDs (n : String) (tr : List Event) :
    stdoutLinesOf (Event.getIDsOfNames n :: tr) = stdoutLinesOf tr := by
  simp [stdoutLinesOf]

@[simp] theorem stdoutLinesOf_cons_release (tr : List Event) :
    stdoutLinesOf (Event.releaseObject :: tr) = stdoutLinesOf tr := by
  simp [stdoutLinesOf]

@[simp] theorem stdoutLinesOf_cons_invoke (d : Int) (m : DispatchMode)
    (a : List VARIANT) (na : List Int) (tr : List Event) :
    stdoutLinesOf (Event.invoke d m a na :: tr) = stdoutLinesOf tr := by
  simp [stdoutLinesOf]

@[simp] theorem stderrLinesOf_cons_stdout (l : String) (tr : List Event) :
    stderrLinesOf (Event.stdout l :: tr) = stderrLinesOf tr := by
  simp [stderrLinesOf]

@[simp] theorem stderrLinesOf_cons_stderr (l : String) (tr : List Event) :
    stderrLinesOf (Event.stderr l :: tr) = l :: stderrLinesOf tr := by
  simp [stderrLinesOf]

@[simp] theorem stderrLinesOf_cons_coInit (tr : List Event) :
    stderrLinesOf (Event.coInit :: tr) = stderrLinesOf tr := by
  simp [stderrLinesOf]

@[simp] theorem stderrLinesOf_cons_coUninit (tr : List Event) :
    stderrLinesOf (Event.coUninit :: tr) = stderrLinesOf tr := by
  simp [stderrLinesOf]

@[simp] theorem stderrLinesOf_cons_getIDs (n : String) (tr : List Event) :
    stderrLinesOf (Event.getIDsOfNames n :: tr) = stderrLinesOf tr := by
  simp [stderrLinesOf]

@[simp] theorem stderrLinesOf_cons_release (tr : List Event) :
    stderrLinesOf (Event.releaseObject :: tr) = stderrLinesOf tr := by
  simp [stderrLinesOf]

@[simp] theorem stderrLinesOf_cons_invoke (d : Int) (m : DispatchMode)
    (a : List VARIANT) (na : List Int) (tr : List Event) :
    stderrLinesOf (Event.invoke d m a na :: tr) = stderrLinesOf tr := by
  simp [stderrLinesOf]

@[simp] theorem invokeCallsOf_stderrMap (ws : List String) :
    invokeCallsOf (ws.map Event.stderr) = [] := by
  induction ws with
  | nil => rfl
  | cons w ws ih => simp [ih]

@[simp] theorem stdoutLinesOf_stderrMap (ws : List String) :
    stdoutLinesOf (ws.map Event.stderr) = [] := by
  induction ws with
  | nil => rfl
  | cons w ws ih => simp [ih]

@[simp] theorem stderrLinesOf_stderrMap (ws : List String) :
    stderrLinesOf (ws.map Event.stderr) = ws := by
  induction ws with
  | nil => rfl
  | cons w ws ih => simp [ih]

/-- The trace of a successful property loop: one progress line and one
property-put invocation per property, in the iteration order, with the
marshaling warnings on stderr. -/
theorem setPropsLoop_ok_spec (host : ComHost) :
    ∀ props : List (String × Json),
      (setPropsLoop host props).2 = Except.ok () →
      invokeCallsOf (setPropsLoop host props).1 =
          props.map (fun p => (resolvedId host p.1, DispatchMode.propertyPut)) ∧
        stdoutLinesOf (setPropsLoop host props).1 =
          props.map settingPropertyLine ∧
        stderrLinesOf (setPropsLoop host props).1 =
          props.flatMap fun p => (value_to_variant p.2).2 := by
  intro props
  induction props with
  | nil => intro _; exact ⟨rfl, rfl, rfl⟩
  | cons p rest ih =>
      intro hok
      cases hg : host.getIDsOfNames p.1 with
      | error e => simp [setPropsLoop, set_property, hg] at hok
      | ok d =>
          cases hput : host.invokePut d (value_to_variant p.2).1 with
          | error e => simp [setPropsLoop, set_property, hg, hput] at hok
          | ok _ =>
              have hok' : (setPropsLoop host rest).2 = Except.ok () := by
                simpa [setPropsLoop, set_property, hg, hput] using hok
              obtain ⟨h1, h2, h3⟩ := ih hok'
              have hr : resolvedId host p.1 = d := by simp [resolvedId, hg]
              have htr : (setPropsLoop host (p :: rest)).1 =
                  Event.stdout (settingPropertyLine p) ::
                    ([Event.getIDsOfNames p.1] ++
                        ((value_to_variant p.2).2).map Event.stderr ++
                        [Event.invoke d .propertyPut [(value_to_variant p.2).1]
                          [dispidPropertyPut]]) ++
                    (setPropsLoop host rest).1 := by
                simp [setPropsLoop, set_property, hg, hput]
              rw [htr]
              refine ⟨?_, ?_, ?_⟩ <;> simp [h1, h2, h3, hr]

/-- The trace of a successful `call_method`: the property loop's trace
followed by the method resolution, the "Calling method" line and a
single zero-argument method invocation. -/
theorem call_method_ok_spec (host : ComHost) (name : String)
    (props : List (String × Json))
    (hok : (call_method host name props).2 = Except.ok ()) :
    invokeCallsOf (call_method host name props).1 =
        props.map (fun p => (resolvedId host p.1, DispatchMode.propertyPut)) ++
          [(resolvedId host name, DispatchMode.method)] ∧
      stdoutLinesOf (call_method host name props).1 =
        props.map settingPropertyLine ++ ["Calling method: " ++ name] ∧
      stderrLinesOf (call_method host name props).1 =
        props.flatMap fun p => (value_to_variant p.2).2 := by
  cases hloop : (setPropsLoop host props).2 with
  | error e => simp [call_method, hloop] at hok
  | ok _ =>
      cases hg : host.getIDsOfNames name with
      | error e => simp [call_method, hloop, hg] at hok
      | ok d =>
          obtain ⟨h1, h2, h3⟩ := setPropsLoop_ok_spec host props hloop
          have hr : resolvedId host name = d := by simp [resolvedId, hg]
          have htr : (call_method host name props).1 =
              (setPropsLoop host props).1 ++
                [Event.getIDsOfNames name,
                  Event.stdout ("Calling method: " ++ name),
                  Event.invoke d .method [] []] := by
            simp [call_method, hloop, hg]
          rw [htr]
          refine ⟨?_, ?_, ?_⟩ <;> simp [h1, h2, h3, hr]

/-- `VariantToString` into a zero-capacity buffer always fails. -/
theorem variantToStringInto_zero (v : VARIANT) :
    variantToStringInto v 0 = Except.error insufficientBufferError := by
  rw [variantToStringInto, if_neg (by omega)]

/-- The status read can never produce a string: whatever `VARIANT` the
host returns, the stringify step writes into the discarded zero-length
temporary and fails. -/
theorem get_property_always_fails (host : ComHost) (name : String) :
    ∃ e, (get_property host name).2 = Except.error e := by
  cases hg : host.getIDsOfNames name with
  | error e => exact ⟨e, by simp [get_property, hg]⟩
  | ok dispid =>
      cases hres : host.invokeGet dispid with
      | error e => exact ⟨e, by simp [get_property, hg, hres]⟩
      | ok r =>
          exact ⟨insufficientBufferError,
            by simp [get_property, hg, hres, variantToStringInto_zero]⟩

/-- The `Invoke` calls of a status read: none when the name fails to
resolve, otherwise exactly the single property get. -/
theorem get_property_calls (host : ComHost) (name : String) :
    invokeCallsOf (get_property host name).1 = [] ∨
      invokeCallsOf (get_property host name).1 =
        [(resolvedId host name, DispatchMode.propertyGet)] := by
  cases hg : host.getIDsOfNames name with
  | error e => left; simp [get_property, hg]
  | ok dispid =>
      right
      have hr : resolvedId host name = dispid := by simp [resolvedId, hg]
      cases hres : host.invokeGet dispid with
      | error e => simp [get_property, hg, hres, hr]
      | ok r => simp [get_property, hg, hres, variantToStringInto_zero, hr]

/-- No run of `execute` can succeed: every earlier failure aborts the
run, and the final status read always fails
(`get_property_always_fails`). -/
theorem execute_never_succeeds (host : ComHost) (com : ComMethodCall)
    (iter : List (String × Json)) :
    resultOk (execute host com iter).2 = false := by
  cases hc : host.clsidFromProgID com.prog_id with
  | error e => simp [execute, hc, resultOk]
  | ok clsid =>
      cases hi : host.createInstance clsid with
      | error e => simp [execute, hc, hi, resultOk]
      | ok _ =>
          cases hcm : (call_method host com.method iter).2 with
          | error e => simp [execute, hc, hi, hcm, resultOk]
          | ok _ =>
              obtain ⟨e, hgp⟩ := get_property_always_fails host "ErrorCode"
              simp [execute, hc, hi, hcm, hgp, resultOk]

/-- The call descriptor decoded from the C2 counterexample document:
properties were encountered in the order `a`, then `b`. -/
def comAB : ComMethodCall :=
  ⟨"1", "X.Y", "Cancel", [("a", Json.str "x"), ("b", Json.str "y")]⟩

/-- C2 (counterexample): the claim's ordering part fails on the code.
`properties` is a `std::collections::HashMap`, whose iteration order is
unspecified (randomized per process); the order the loop visits the
entries is therefore not the decoding order.  Witnessed here by a run
whose iteration order is the permutation `b, a` of the decoded order
`a, b` (on `hostOk`, `a` resolves to DISPID 1 and `b` to DISPID 2): the
property-put invocations happen as DISPID 2 then DISPID 1, not 1 then
2, before the method invocation and the attempted status read. -/
theorem C2_insertion_order_counterexample :
    get_call_params_from_json
        (Json.obj
          [("version", Json.str "1"), ("prog_id", Json.str "X.Y"),
            ("method", Json.str "Cancel"),
            ("properties",
              Json.obj [("a", Json.str "x"), ("b", Json.str "y")])]) =
      Except.ok comAB ∧
    [("b", Json.str "y"), ("a", Json.str "x")].Perm comAB.properties ∧
    invokeCallsOf
        (execute hostOk comAB [("b", Json.str "y"), ("a", Json.str "x")]).1 =
      [(2, DispatchMode.propertyPut), (1, DispatchMode.propertyPut),
        (10, DispatchMode.method), (11, DispatchMode.propertyGet)] ∧
    [(2, DispatchMode.propertyPut), (1, DispatchMode.propertyPut)] ≠
      [(1, DispatchMode.propertyPut), (2, DispatchMode.propertyPut)] :=
  ⟨rfl, List.Perm.swap _ _ _, rfl, by decide⟩

/-- C2 (amended): every property in the descriptor is assigned before
the method invocation occurs, in the `HashMap`'s unspecified iteration
order (an arbitrary permutation of the decoded properties), not
necessarily the decoding order: whenever the target resolves and the
method invocation occurs (the property loop and the method call
succeed), the run's `Invoke` sequence is exactly one property put per
property in iteration order, then the single method invocation, then at
most the status read's property get. -/
theorem C2_puts_precede_method (host : ComHost) (com : ComMethodCall)
    (iter : List (String × Json)) (hperm : iter.Perm com.properties)
    (hstart : ∃ c, host.clsidFromProgID com.prog_id = Except.ok c ∧
      host.createInstance c = Except.ok ())
    (hcm : (call_method host com.method iter).2 = Except.ok ()) :
    invokeCallsOf (execute host com iter).1 =
      iter.map (fun p => (resolvedId host p.1, DispatchMode.propertyPut)) ++
        [(resolvedId host com.method, DispatchMode.method)] ++
        invokeCallsOf (get_property host "ErrorCode").1 ∧
      (invokeCallsOf (get_property host "ErrorCode").1 = [] ∨
        invokeCallsOf (get_property host "ErrorCode").1 =
          [(resolvedId host "ErrorCode", DispatchMode.propertyGet)]) := by
  obtain ⟨c, hc, hi⟩ := hstart
  obtain ⟨e, hgp⟩ := get_property_always_fails host "ErrorCode"
  obtain ⟨h1, -, -⟩ := call_method_ok_spec host com.method iter hcm
  have htr : (execute host com iter).1 =
      Event.coInit :: (call_method host com.method iter).1 ++
        (get_property host "ErrorCode").1 ++ [Event.releaseObject] := by
    simp [execute, hc, hi, hcm, hgp]
  constructor
  · rw [htr]; simp [h1]
  · exact get_property_calls host "ErrorCode"

/-- C2 witness: the amended theorem applied at a concrete run whose
iteration order `b, a` permutes the decoded order `a, b`. -/
theorem C2_puts_precede_method_witness :
    invokeCallsOf
        (execute hostOk comAB [("b", Json.str "y"), ("a", Json.str "x")]).1 =
      [("b", Json.str "y"), ("a", Json.str "x")].map
          (fun p => (resolvedId hostOk p.1, DispatchMode.propertyPut)) ++
        [(resolvedId hostOk comAB.method, DispatchMode.method)] ++
        invokeCallsOf (get_property hostOk "ErrorCode").1 ∧
      (invokeCallsOf (get_property hostOk "ErrorCode").1 = [] ∨
        invokeCallsOf (get_property hostOk "ErrorCode").1 =
          [(resolvedId hostOk "ErrorCode", DispatchMode.propertyGet)]) :=
  C2_puts_precede_method hostOk comAB [("b", Json.str "y"), ("a", Json.str "x")]
    (List.Perm.swap _ _ _) ⟨7, rfl, rfl⟩ rfl

/-- C6: evaluation at the failing input, and the underlying defect.  No
run of the program can succeed: the status read passes
`VariantToString` the discarded zero-length temporary
`bstr_val.to_vec()` (`src/main.rs:129-135`), so it always fails and an
"Error Code: <status>" line is never printed; the run aborts after the
"Calling method" progress line already went to standard output (and
even had the read worked, stdout would carry the progress lines in
addition to the status line). -/
theorem C6_no_successful_run :
    (∀ (host : ComHost) (com : ComMethodCall) (iter : List (String × Json)),
      resultOk (execute host com iter).2 = false) ∧
      stdoutLinesOf (execute hostOk ⟨"1", "X.Y", "Cancel", []⟩ []).1 =
        ["Calling method: Cancel"] ∧
      (get_property hostOk "ErrorCode").2 =
        Except.error insufficientBufferError :=
  ⟨fun host com iter => execute_never_succeeds host com iter, rfl, rfl⟩

/-- A "Setting property" progress line is never an "Error Code" line. -/
theorem settingPropertyLine_not_errorCode (p : String × Json) :
    beginsWithErrorCode (settingPropertyLine p) = false := by
  have hd : (settingPropertyLine p).data =
      "Setting property: ".data ++ (p.1 ++ (" = " ++ jsonDebugRepr p.2)).data :=
    String.data_append _ _
  rw [beginsWithErrorCode, hd,
    List.take_append_of_le_length (by decide :
      12 ≤ "Setting property: ".data.length)]
  decide

/-- The property loop after a failing assignment: the loop stops with
the error; the only `Invoke` calls performed are property puts, at most
one per preceding (successful) property plus possibly the failing one;
and stdout carries exactly the progress lines of the properties
reached. -/
theorem setPropsLoop_fail_spec (host : ComHost) :
    ∀ (pre : List (String × Json)) (p : String × Json)
      (rest : List (String × Json)),
      (∀ q ∈ pre, resultOk (set_property host q.1 q.2).2 = true) →
      resultOk (set_property host p.1 p.2).2 = false →
      resultOk (setPropsLoop host (pre ++ p :: rest)).2 = false ∧
        (∀ c ∈ invokeCallsOf (setPropsLoop host (pre ++ p :: rest)).1,
          c.2 = DispatchMode.propertyPut) ∧
        (invokeCallsOf (setPropsLoop host (pre ++ p :: rest)).1).length ≤
          pre.length + 1 ∧
        stdoutLinesOf (setPropsLoop host (pre ++ p :: rest)).1 =
          (pre ++ [p]).map settingPropertyLine := by
  intro pre
  induction pre with
  | nil =>
      intro p rest _ hfail
      cases hg : host.getIDsOfNames p.1 with
      | error e =>
          have htr : setPropsLoop host ([] ++ p :: rest) =
              (Event.stdout (settingPropertyLine p) :: [Event.getIDsOfNames p.1],
                Except.error e) := by
            simp [setPropsLoop, set_property, hg]
          rw [htr]
          refine ⟨rfl, ?_, ?_, ?_⟩ <;> simp [resultOk]
      | ok d =>
          cases hput : host.invokePut d (value_to_variant p.2).1 with
          | ok _ => simp [set_property, hg, hput, resultOk] at hfail
          | error e =>
              have htr : setPropsLoop host ([] ++ p :: rest) =
                  (Event.stdout (settingPropertyLine p) ::
                      ([Event.getIDsOfNames p.1] ++
                        ((value_to_variant p.2).2).map Event.stderr ++
                        [Event.invoke d .propertyPut
                          [(value_to_variant p.2).1] [dispidPropertyPut]]),
                    Except.error e) := by
                simp [setPropsLoop, set_property, hg, hput]
              rw [htr]
              refine ⟨rfl, ?_, ?_, ?_⟩ <;> simp [resultOk]
  | cons q pre' ih =>
      intro p rest hpre hfail
      have hq : resultOk (set_property host q.1 q.2).2 = true :=
        hpre q (by simp)
      have hpre' : ∀ r ∈ pre', resultOk (set_property host r.1 r.2).2 = true :=
        fun r hr => hpre r (by simp [hr])
      obtain ⟨ih1, ih2, ih3, ih4⟩ := ih p rest hpre' hfail
      cases hg : host.getIDsOfNames q.1 with
      | error e => simp [set_property, hg, resultOk] at hq
      | ok d =>
          cases hput : host.invokePut d (value_to_variant q.2).1 with
          | error e => simp [set_property, hg, hput, resultOk] at hq
          | ok _ =>
              have htr : setPropsLoop host ((q :: pre') ++ p :: rest) =
                  (Event.stdout (settingPropertyLine q) ::
                      ([Event.getIDsOfNames q.1] ++
                          ((value_to_variant q.2).2).map Event.stderr ++
                          [Event.invoke d .propertyPut
                            [(value_to_variant q.2).1] [dispidPropertyPut]]) ++
                      (setPropsLoop host (pre' ++ p :: rest)).1,
                    (setPropsLoop host (pre' ++ p :: rest)).2) := by
                simp [setPropsLoop, set_property, hg, hput]
              rw [htr]
              refine ⟨ih1, ?_, ?_, ?_⟩
              · intro c hc
                simp at hc
                rcases hc with hc | hc
                · simp [hc]
                · exact ih2 c hc
              · simpa using Nat.succ_le_succ ih3
              · simpa using ih4

/-- C4: if any one property assignment fails, the loop stops there: no
subsequent property assignment (at most the properties up to and
including the failing one produce put invocations), no method
invocation and no status read are performed (every `Invoke` in the
trace is a property put), the error is propagated as the call's result,
and no "Error Code:" line is printed on standard output. -/
theorem C4_failed_put_aborts_call (host : ComHost) (com : ComMethodCall)
    (pre rest : List (String × Json)) (p : String × Json)
    (hpre : ∀ q ∈ pre, resultOk (set_property host q.1 q.2).2 = true)
    (hfail : resultOk (set_property host p.1 p.2).2 = false) :
    resultOk (execute host com (pre ++ p :: rest)).2 = false ∧
      (∀ c ∈ invokeCallsOf (execute host com (pre ++ p :: rest)).1,
        c.2 = DispatchMode.propertyPut) ∧
      (invokeCallsOf (execute host com (pre ++ p :: rest)).1).length ≤
        pre.length + 1 ∧
      (∀ l ∈ stdoutLinesOf (execute host com (pre ++ p :: rest)).1,
        beginsWithErrorCode l = false) := by
  obtain ⟨l1, l2, l3, l4⟩ := setPropsLoop_fail_spec host pre p rest hpre hfail
  cases hc : host.clsidFromProgID com.prog_id with
  | error e =>
      have htr : execute host com (pre ++ p :: rest) =
          ([Event.coInit], Except.error e) := by
        simp [execute, hc]
      rw [htr]
      exact ⟨rfl, by simp, by simp, by simp⟩
  | ok clsid =>
      cases hi : host.createInstance clsid with
      | error e =>
          have htr : execute host com (pre ++ p :: rest) =
              ([Event.coInit], Except.error e) := by
            simp [execute, hc, hi]
          rw [htr]
          exact ⟨rfl, by simp, by simp, by simp⟩
      | ok _ =>
          have hex : ∃ e0, (setPropsLoop host (pre ++ p :: rest)).2 =
              Except.error e0 := by
            cases hl : (setPropsLoop host (pre ++ p :: rest)).2 with
            | error e0 => exact ⟨e0, rfl⟩
            | ok _ => rw [hl] at l1; simp [resultOk] at l1
          obtain ⟨e0, hl⟩ := hex
          have hcm2 : (call_method host com.method (pre ++ p :: rest)).2 =
              Except.error e0 := by
            simp [call_method, hl]
          have hcm1 : (call_method host com.method (pre ++ p :: rest)).1 =
              (setPropsLoop host (pre ++ p :: rest)).1 := by
            simp [call_method, hl]
          have htr : execute host com (pre ++ p :: rest) =
              (Event.coInit ::
                  (call_method host com.method (pre ++ p :: rest)).1 ++
                  [Event.releaseObject],
                Except.error e0) := by
            simp [execute, hc, hi, hcm2]
          rw [htr, hcm1]
          refine ⟨rfl, ?_, ?_, ?_⟩
          · intro c hc'
            simp at hc'
            exact l2 c hc'
          · simpa using l3
          · intro l hlm
            have hlm' : l ∈ List.map settingPropertyLine (pre ++ [p]) := by
              simpa [l4] using hlm
            obtain ⟨q, -, hq⟩ := List.mem_map.mp hlm'
            rw [← hq]
            exact settingPropertyLine_not_errorCode q

/-- C4 witness: the theorem applied at a concrete call whose second
property assignment fails, with a third property left unassigned. -/
theorem C4_failed_put_aborts_call_witness :
    resultOk
        (execute hostPutFailB ⟨"1", "X.Y", "Cancel", []⟩
            ([("a", Json.str "x")] ++ ("b", Json.str "y") ::
              [("c", Json.str "z")])).2 = false ∧
      (∀ c ∈
          invokeCallsOf
            (execute hostPutFailB ⟨"1", "X.Y", "Cancel", []⟩
                ([("a", Json.str "x")] ++ ("b", Json.str "y") ::
                  [("c", Json.str "z")])).1,
        c.2 = DispatchMode.propertyPut) ∧
      (invokeCallsOf
          (execute hostPutFailB ⟨"1", "X.Y", "Cancel", []⟩
              ([("a", Json.str "x")] ++ ("b", Json.str "y") ::
                [("c", Json.str "z")])).1).length ≤
        [("a", Json.str "x")].length + 1 ∧
      (∀ l ∈
          stdoutLinesOf
            (execute hostPutFailB ⟨"1", "X.Y", "Cancel", []⟩
                ([("a", Json.str "x")] ++ ("b", Json.str "y") ::
                  [("c", Json.str "z")])).1,
        beginsWithErrorCode l = false) :=
  C4_failed_put_aborts_call hostPutFailB ⟨"1", "X.Y", "Cancel", []⟩
    [("a", Json.str "x")] [("c", Json.str "z")] ("b", Json.str "y")
    (by
      intro q hq
      rw [List.mem_singleton] at hq
      subst hq
      rfl)
    rfl

/-- For values already in the 32-bit signed range, the `as i32`
narrowing cast is the identity. -/
theorem toInt32Wrap_eq_self (i : Int) (h1 : -(2 ^ 31) ≤ i)
    (h2 : i < 2 ^ 31) : toInt32Wrap i = i := by
  have h0 : (0 : Int) ≤ i + 2 ^ 31 := by omega
  have hlt : i + 2 ^ 31 < 2 ^ 32 := by omega
  rw [toInt32Wrap, Int.emod_eq_of_lt h0 hlt]
  omega

/-- The host for the C8 failing input: every COM call succeeds and the
status read returns exactly the `VARIANT` marshaled from the 32-bit
integer `-5`. -/
def hostRoundTrip : ComHost where
  clsidFromProgID := fun _ => .ok 7
  createInstance := fun _ => .ok ()
  getIDsOfNames := fun _ => .ok 11
  invokePut := fun _ _ => .ok ()
  invokeMethod := fun _ => .ok ()
  invokeGet := fun _ =>
    .ok (value_to_variant (Json.num (JsonNumber.negInt (-5)))).1

/-- C8: evaluation at the failing input.  Marshaling the 32-bit integer
`-5` yields the i32-kind `VARIANT` holding `-5` (the narrowing is the
identity on the 32-bit range, `toInt32Wrap_eq_self`), and the external
`VariantToString` would render it as the decimal string "-5"; but the
program's unmarshal path (`get_property`, `src/main.rs:129-135`) writes
the conversion into the discarded zero-length temporary
`bstr_val.to_vec()` and returns the untouched empty BSTR, so the status
read fails instead of producing the decimal string —
`unmarshal (marshal v)` never round-trips in the code. -/
theorem C8_roundtrip_discards_conversion :
    (value_to_variant (Json.num (JsonNumber.negInt (-5)))).1 =
        VARIANT.vi4 (-5) ∧
      variantToStringRendering (VARIANT.vi4 (-5)) =
        jsonNumberDisplay (JsonNumber.negInt (-5)) ∧
      (get_property hostRoundTrip "ErrorCode").2 =
        Except.error insufficientBufferError :=
  ⟨rfl, rfl, rfl⟩
